import Mathlib

/-!
Shallow embedding of the deep-project-researcher core
(src/lib/research-engine.ts, src/lib/reference-manager.ts,
src/lib/project-analyzer.ts, src/lib/types.ts) in Lean 4.

Conventions of the embedding:
* JavaScript strings are Lean `String`; `s.toLowerCase()` is `strLower`
  (ASCII lowercasing — all string constants in this code base are ASCII),
  `s.includes(t)` is `strIncludes s t` (contiguous-substring test, true on
  the empty pattern, exactly as in JS), `s.startsWith(t)` is
  `strStartsWith`, and `Math.min` is `jsMin`.
* JavaScript numbers that only ever hold integral values in this code base
  (scores, star counts, millisecond timestamps) are `Int`.
* `new Date(s)` never throws in JavaScript; it yields an Invalid Date whose
  numeric value is NaN when `s` does not parse.  Every comparison with NaN is
  false and arithmetic on NaN stays NaN, so the embedding models date parsing
  as an abstract `jsParseDate : String → Option Int` (milliseconds since the
  epoch, `none` for Invalid Date) and reproduces the NaN behaviour at each
  use site: a `none` date fails every `>=` comparison and earns no recency
  bonus.  In particular the `try`/`catch` blocks around date handling in
  `cleanupReferences` and `calculateRelevanceScore` are unreachable: the code
  inside them cannot throw.
* Millisecond arithmetic replaces the floating division by 86 400 000:
  `(now - t) / 86400000 < d` is rendered as `now - t < d * 86400000`, which is
  the same predicate over the rationals.
-/

/-- Test `charsLead pat s` : `pat` occurs at the head of `s` (character list form). -/
def charsLead : List Char → List Char → Bool
  | [], _ => true
  | _ :: _, [] => false
  | p :: ps, c :: cs => p == c && charsLead ps cs

/-- Test `charsContain s pat` : `pat` occurs contiguously somewhere in `s`. -/
def charsContain : List Char → List Char → Bool
  | [], pat => pat.isEmpty
  | s@(_ :: t), pat => charsLead pat s || charsContain t pat

/-- JavaScript `s.includes(pat)`. -/
def strIncludes (s pat : String) : Bool :=
  charsContain s.toList pat.toList

/-- JavaScript `s.startsWith(pat)`. -/
def strStartsWith (s pat : String) : Bool :=
  charsLead pat.toList s.toList

/-- ASCII lowercasing of one character (the fragment of
`String.prototype.toLowerCase` exercised by this code base, whose string
data is ASCII). -/
def charLower (c : Char) : Char :=
  if 65 ≤ c.toNat ∧ c.toNat ≤ 90 then Char.ofNat (c.toNat + 32) else c

/-- JavaScript `s.toLowerCase()`. -/
def strLower (s : String) : String :=
  ⟨s.toList.map charLower⟩

/-- JavaScript `Math.min` on two (non-NaN) numbers. -/
def jsMin (a b : Int) : Int := if a ≤ b then a else b

/-- Structure `Reference` from src/lib/types.ts (src/unnamed/part_001, lines 17–30). -/
structure Reference where
  url : String
  platform : String
  name : String
  description : String
  techStack : List String
  features : List String
  domain : String
  relevanceScore : Int
  stars : Option Int := none
  lastUpdated : String
  notes : Option String := none
  tags : Option (List String) := none
deriving DecidableEq

/-- Structure `ReferencesData` from src/lib/types.ts (src/unnamed/part_001, lines 33–38). -/
structure ReferencesData where
  projectPath : String
  currentTechStack : List String
  references : List Reference
  lastResearchDate : String
deriving DecidableEq

/-! ## Relevance scorer (src/lib/research-engine.ts, calculateRelevanceScore) -/

/-- The tech-overlap count of `calculateRelevanceScore` (lines 84–86):
`reference.techStack.filter(tech => targetTechStack.some(target =>
target.toLowerCase().includes(tech.toLowerCase()))).length`. -/
def techOverlapCount (reference : Reference) (targetTechStack : List String) : Nat :=
  (reference.techStack.filter (fun tech =>
    targetTechStack.any (fun target =>
      strIncludes (strLower target) (strLower tech)))).length

/-- The feature-overlap count of `calculateRelevanceScore` (lines 90–92). -/
def featureOverlapCount (reference : Reference) (targetFeatures : List String) : Nat :=
  (reference.features.filter (fun feature =>
    targetFeatures.any (fun target =>
      strIncludes (strLower target) (strLower feature)))).length

/-- The tech component `Math.min(techOverlap * 10, 40)` (line 87). -/
def techComponent (n : Nat) : Int := jsMin ((n : Int) * 10) 40

/-- The feature component `Math.min(featureOverlap * 10, 30)` (line 93). -/
def featureComponent (n : Nat) : Int := jsMin ((n : Int) * 10) 30

/-- Lines 96–98: `if (reference.domain && targetDomain &&
reference.domain === targetDomain) score += 20` (JS string truthiness:
non-empty). -/
def domainComponent (refDomain targetDomain : String) : Int :=
  if refDomain ≠ "" ∧ targetDomain ≠ "" ∧ refDomain = targetDomain then 20 else 0

/-- Lines 100–111: the recency bonus.  `jsParseDate` stands for
`new Date(·).getTime()` (`none` = NaN); `now` is `Date.now()` in
milliseconds.  A NaN value fails both `< 30` and `< 90` day tests, so an
unparseable `lastUpdated` earns 0 — the `catch` branch is unreachable. -/
def recencyBonus (jsParseDate : String → Option Int) (now : Int)
    (lastUpdated : String) : Int :=
  match jsParseDate lastUpdated with
  | none => 0
  | some t =>
    if now - t < 30 * 86400000 then 10
    else if now - t < 90 * 86400000 then 5
    else 0

/-- Function `calculateRelevanceScore` (src/lib/research-engine.ts, lines 75–114),
with the wall clock and the Date parser passed explicitly. -/
def calculateRelevanceScore (jsParseDate : String → Option Int) (now : Int)
    (reference : Reference) (targetTechStack targetFeatures : List String)
    (targetDomain : String) : Int :=
  let score : Int := 0
  let score := score + techComponent (techOverlapCount reference targetTechStack)
  let score := score + featureComponent (featureOverlapCount reference targetFeatures)
  let score := score + domainComponent reference.domain targetDomain
  let score := score + recencyBonus jsParseDate now reference.lastUpdated
  jsMin score 100

/-! ## Query constructor (src/lib/research-engine.ts, constructSearchQuery) -/

/-- JavaScript `Array.prototype.join(" ")`. -/
def joinSp : List String → String
  | [] => ""
  | [x] => x
  | x :: y :: xs => x ++ " " ++ joinSp (y :: xs)

/-- The `queryParts` array built by `constructSearchQuery`
(src/lib/research-engine.ts, lines 13–33).  `if (domain && domain !==
"general")` is JS truthiness: the domain group is pushed only for a
non-empty domain different from `"general"`. -/
def queryParts (techStack features : List String) (domain : String) : List String :=
  let parts : List String := []
  let parts := if domain ≠ "" ∧ domain ≠ "general" then parts ++ [domain] else parts
  let keyTech := techStack.take 3
  let parts := if keyTech.length > 0 then parts ++ [joinSp keyTech] else parts
  let keyFeatures := features.take 2
  let parts := if keyFeatures.length > 0 then parts ++ [joinSp keyFeatures] else parts
  parts ++ ["github"]

/-- Function `constructSearchQuery` (src/lib/research-engine.ts, lines 8–36). -/
def constructSearchQuery (techStack features : List String) (domain : String) : String :=
  joinSp (queryParts techStack features domain)

/-! ## Reference store (src/lib/reference-manager.ts)

Every store operation there is `load`, a pure transformation of the
`ReferencesData`, then `save`.  The pure transformations are embedded
directly; the I/O shell of `loadReferences` is embedded separately below for
the error-propagation claim. -/

/-- The merge step of `addReferences` (src/lib/reference-manager.ts,
lines 89–96): collect the existing `url` values, drop incoming references
whose `url` is already present, append the survivors. -/
def addReferencesPure (currentData : ReferencesData)
    (newReferences : List Reference) : ReferencesData :=
  let existingUrls := currentData.references.map (·.url)
  let uniqueNewReferences :=
    newReferences.filter (fun ref => !(existingUrls.contains ref.url))
  { currentData with references := currentData.references ++ uniqueNewReferences }

/-- The update step of `updateTechStack` (src/lib/reference-manager.ts,
lines 214–217). -/
def updateTechStackPure (data : ReferencesData) (techStack : List String) :
    ReferencesData :=
  { data with currentTechStack := techStack }

/-- The filter of `cleanupReferences` (src/lib/reference-manager.ts,
lines 247–253): keep `ref` when `new Date(ref.lastUpdated) >= cutoffDate`.
`new Date` never throws; for an unparseable `lastUpdated` it yields an
Invalid Date whose value is NaN, and `NaN >= cutoff` is false, so the
reference is dropped — the `catch { return true; }` branch (the
"keep if date is invalid" intent) is unreachable. -/
def cleanupKeep (jsParseDate : String → Option Int) (cutoff : Int)
    (ref : Reference) : Bool :=
  match jsParseDate ref.lastUpdated with
  | some t => cutoff ≤ t
  | none => false

/-- The pruning step of `cleanupReferences` (src/lib/reference-manager.ts,
lines 243–258); `cutoff` is the millisecond value of `now` minus `maxAge`
days. -/
def cleanupReferencesPure (jsParseDate : String → Option Int) (cutoff : Int)
    (data : ReferencesData) : ReferencesData :=
  { data with references := data.references.filter (cleanupKeep jsParseDate cutoff) }

/-- Predicate `matchesQuery q ref` : the free-text predicate of `searchReferences`
(src/lib/reference-manager.ts, lines 141–147), with `q` already lowercased
by the caller as in the source. -/
def matchesQuery (queryLower : String) (ref : Reference) : Bool :=
  strIncludes (strLower ref.name) queryLower ||
  strIncludes (strLower ref.description) queryLower ||
  ref.techStack.any (fun tech => strIncludes (strLower tech) queryLower) ||
  ref.features.any (fun feature => strIncludes (strLower feature) queryLower) ||
  strIncludes (strLower ref.domain) queryLower

/-- The search criteria record of `searchReferences`
(src/lib/reference-manager.ts, lines 118–124). -/
structure SearchCriteria where
  query : Option String := none
  techStack : Option (List String) := none
  features : Option (List String) := none
  domain : Option String := none
  minRelevanceScore : Option Int := none

/-- Stable insertion into a descending run, mirroring what a stable sort
with comparator `(a, b) => b.relevanceScore - a.relevanceScore` produces:
`r` is placed before the first element whose score is not ≥ `r`'s. -/
def insertDesc (r : Reference) : List Reference → List Reference
  | [] => [r]
  | x :: xs =>
    if x.relevanceScore ≤ r.relevanceScore then r :: x :: xs
    else x :: insertDesc r xs

/-- JavaScript `Array.prototype.sort` with comparator
`(a, b) => b.relevanceScore - a.relevanceScore`: JavaScript's sort is
stable (ES2019), and a stable sort for a total preorder comparator has a
unique result, here realised as a stable insertion sort. -/
def sortDesc : List Reference → List Reference
  | [] => []
  | x :: xs => insertDesc x (sortDesc xs)

/-- The pure core of `searchReferences` (src/lib/reference-manager.ts,
lines 134–190): the five conjunctive filters, applied in source order, then
the descending stable sort.  `if (criteria.query)`, the tech-stack/feature
length guards, and `if (criteria.domain)` are JS truthiness tests;
`criteria.minRelevanceScore !== undefined` fires on every present value. -/
def searchReferencesPure (references : List Reference)
    (criteria : SearchCriteria) : List Reference :=
  let filtered := references
  let filtered :=
    match criteria.query with
    | some q => if q ≠ "" then filtered.filter (matchesQuery (strLower q)) else filtered
    | none => filtered
  let filtered :=
    match criteria.techStack with
    | some ts =>
      if ts.length > 0 then
        filtered.filter (fun ref =>
          ts.any (fun targetTech =>
            ref.techStack.any (fun refTech =>
              strIncludes (strLower refTech) (strLower targetTech))))
      else filtered
    | none => filtered
  let filtered :=
    match criteria.features with
    | some fs =>
      if fs.length > 0 then
        filtered.filter (fun ref =>
          fs.any (fun targetFeature =>
            ref.features.any (fun refFeature =>
              strIncludes (strLower refFeature) (strLower targetFeature))))
      else filtered
    | none => filtered
  let filtered :=
    match criteria.domain with
    | some d =>
      if d ≠ "" then
        filtered.filter (fun ref => strIncludes (strLower ref.domain) (strLower d))
      else filtered
    | none => filtered
  let filtered :=
    match criteria.minRelevanceScore with
    | some m => filtered.filter (fun ref => m ≤ ref.relevanceScore)
    | none => filtered
  sortDesc filtered

/-! ## The I/O shell of `loadReferences` (src/lib/reference-manager.ts,
lines 12–43), for the error-propagation claim.

A thrown JavaScript value is either an `Error` instance (with a `name` and a
`message`) or some other value (modelled by its string rendering).  The
`catch` handlers all run `error instanceof Error ? error :
new ReferenceManagerError(String(error))`; `ReferenceManagerError`
(src/unnamed/part_001, lines 84–89) sets `name = "ReferenceManagerError"`
and is constructed here with the message only — the one-argument call leaves
its `cause` field undefined. -/

/-- A thrown JavaScript value. -/
inductive JsThrown where
  | err (name message : String)
  | other (rendering : String)
deriving DecidableEq

/-- An `Error` object as stored in a failure `Result`. -/
structure JsErrorVal where
  name : String
  message : String
deriving DecidableEq

/-- The handler `error instanceof Error ? error : new ReferenceManagerError(String(error))`
(src/lib/reference-manager.ts, line 40). -/
def catchToError : JsThrown → JsErrorVal
  | .err n m => ⟨n, m⟩
  | .other s => ⟨"ReferenceManagerError", s⟩

/-- The `Result<ReferencesData>` of src/lib/types.ts specialised to the load
path. -/
inductive LoadResult where
  | success (data : ReferencesData)
  | failure (error : JsErrorVal)
deriving DecidableEq

/-- Outcomes of the file-system calls made by `loadReferences`, as an
oracle: each call either returns or throws. -/
structure FsModel where
  mkdirRes : Except JsThrown Unit
  readParseRes : Except JsThrown ReferencesData
  writeRes : Except JsThrown Unit

/-- Function `loadReferences` (src/lib/reference-manager.ts, lines 12–43) over the
file-system oracle.  `readParseRes` combines `fs.readFile` and `JSON.parse`
(both failures land in the same inner `catch`); `nowIso` is the
`new Date().toISOString()` stamped into the synthesized empty state.  A
failing `fs.writeFile` inside the inner `catch` propagates to the outer
`catch`. -/
def loadReferencesShell (fsm : FsModel) (projectPath nowIso : String) :
    LoadResult :=
  match fsm.mkdirRes with
  | .error e => .failure (catchToError e)
  | .ok _ =>
    match fsm.readParseRes with
    | .ok references => .success references
    | .error _ =>
      let emptyData : ReferencesData :=
        { projectPath := projectPath
          currentTechStack := []
          references := []
          lastResearchDate := nowIso }
      match fsm.writeRes with
      | .error e => .failure (catchToError e)
      | .ok _ => .success emptyData

/-! ## Manifest parser (src/lib/project-analyzer.ts, parsePackageJson) -/

/-- The framework keyword list of `parsePackageJson`
(src/lib/project-analyzer.ts, line 59). -/
def frameworkKeywords : List String :=
  ["react", "vue", "angular", "svelte", "next", "express", "koa", "hapi"]

/-- The test `["react", ...].some(fw => dep.includes(fw))` (line 59). -/
def depIsFramework (dep : String) : Bool :=
  frameworkKeywords.any (fun fw => strIncludes dep fw)

/-- The `frameworks` list of `parsePackageJson` (lines 58–60), over the
merged dependency-name list `deps`. -/
def pkgFrameworks (deps : List String) : List String :=
  deps.filter depIsFramework

/-- The `libraries` list of `parsePackageJson` (lines 62–65): not already a
framework, and not a type-only declaration package. -/
def pkgLibraries (deps : List String) : List String :=
  deps.filter (fun dep =>
    !((pkgFrameworks deps).contains dep) && !(strStartsWith dep "@types/"))

/-! ## Concrete fixtures used by counterexamples and witnesses -/

/-- A concrete instance of the abstract Date parser: it resolves two ISO
timestamps a day apart (the values JavaScript's `Date.parse` gives them)
and treats every other string — in particular `"not-a-date"` — as an
Invalid Date. -/
def testParseDate (s : String) : Option Int :=
  if s = "2025-01-01T00:00:00Z" then some 1735689600000
  else if s = "2024-12-31T00:00:00Z" then some 1735603200000
  else none

/-- A stored reference whose `lastUpdated` does not parse as a date. -/
def invalidDateRef : Reference :=
  { url := "https://github.com/a/a", platform := "github", name := "alpha",
    description := "", techStack := [], features := [], domain := "",
    relevanceScore := 50, lastUpdated := "not-a-date" }

/-- A store holding only `invalidDateRef`. -/
def c1Store : ReferencesData :=
  { projectPath := "/proj", currentTechStack := [], references := [invalidDateRef],
    lastResearchDate := "2025-01-01T00:00:00Z" }

/-- The reference of the spec's scoring scenario: techStack `["react"]`,
features `["routing"]`, domain `"framework"`, `lastUpdated` equal to the
current time. -/
def scenarioReference : Reference :=
  { url := "https://github.com/vercel/next.js", platform := "github",
    name := "next.js", description := "React framework with file-based routing",
    techStack := ["react"], features := ["routing"], domain := "framework",
    relevanceScore := 0, lastUpdated := "2025-01-01T00:00:00Z" }

/-- Two incoming references sharing one `url`. -/
def dupRefA : Reference :=
  { url := "https://github.com/a/a", platform := "github", name := "first",
    description := "", techStack := [], features := [], domain := "",
    relevanceScore := 0, lastUpdated := "2025-01-01T00:00:00Z" }

/-- Second incoming reference with `dupRefA`'s `url` but a different name. -/
def dupRefB : Reference :=
  { url := "https://github.com/a/a", platform := "github", name := "second",
    description := "", techStack := [], features := [], domain := "",
    relevanceScore := 0, lastUpdated := "2025-01-01T00:00:00Z" }

/-- A reference with a `url` of its own. -/
def freshRef : Reference :=
  { url := "https://github.com/b/b", platform := "github", name := "third",
    description := "", techStack := [], features := [], domain := "",
    relevanceScore := 0, lastUpdated := "2025-01-01T00:00:00Z" }

/-- The freshly synthesized empty store. -/
def emptyStore : ReferencesData :=
  { projectPath := "/proj", currentTechStack := [], references := [],
    lastResearchDate := "2025-01-01T00:00:00Z" }

/-- A file-system oracle whose `fs.mkdir` throws a permission-denied
`Error`. -/
def deniedFsm : FsModel :=
  { mkdirRes := .error (.err "Error" "EACCES: permission denied, mkdir"),
    readParseRes := .error (.other "unreached"),
    writeRes := .ok () }

/-- Two stored references for search fixtures: one matching "react" with a
high score, one matching with a low score, one not matching. -/
def searchFixture : List Reference :=
  [ { url := "https://github.com/r/high", platform := "github", name := "react-admin",
      description := "admin panel", techStack := ["react"], features := ["crud"],
      domain := "tool", relevanceScore := 90, lastUpdated := "2025-01-01T00:00:00Z" },
    { url := "https://github.com/r/low", platform := "github", name := "react-lite",
      description := "tiny react", techStack := ["react"], features := [],
      domain := "framework", relevanceScore := 40, lastUpdated := "2025-01-01T00:00:00Z" },
    { url := "https://github.com/v/vue", platform := "github", name := "vue-starter",
      description := "vue starter", techStack := ["vue"], features := [],
      domain := "framework", relevanceScore := 95, lastUpdated := "2025-01-01T00:00:00Z" } ]

/-! ## Theorems -/

/-- The embedded `Math.min` agrees with the order-theoretic minimum. -/
theorem jsMin_eq_min (a b : Int) : jsMin a b = min a b := by
  unfold jsMin
  rw [min_def]

/-- The `recencyBonus` only ever takes the values 0, 5 and 10. -/
theorem recencyBonus_bounds (p : String → Option Int) (now : Int) (s : String) :
    0 ≤ recencyBonus p now s ∧ recencyBonus p now s ≤ 10 := by
  unfold recencyBonus
  cases p s with
  | none => simp
  | some t => dsimp only; split_ifs <;> simp

/-- C1: the spec claims a reference whose `lastUpdated` does not parse as a
date survives `cleanupReferences` (maxAge = 1); the code drops it.  With
`now` = 2025-01-01 and cutoff = one day earlier, the store holding only the
`lastUpdated = "not-a-date"` reference is pruned to the empty list, because
`new Date("not-a-date")` yields NaN and `NaN >= cutoff` is false — the
`catch { return true; }` "keep if date is invalid" branch never runs. -/
theorem cleanupReferences_removes_invalid_timestamp :
    (cleanupReferencesPure testParseDate 1735603200000 c1Store).references = [] ∧
    testParseDate invalidDateRef.lastUpdated = none := by decide

/-- C2 counterexample: on the spec's scenario (reference techStack
`["react"]`, features `["routing"]`, domain `"framework"`, `lastUpdated` =
now, target techStack `["react", "typescript"]`, target features
`["routing"]`, target domain `"framework"`), `calculateRelevanceScore` does
not return 100. -/
theorem calculateRelevanceScore_scenario_not_100 :
    calculateRelevanceScore testParseDate 1735689600000 scenarioReference
      ["react", "typescript"] ["routing"] "framework" ≠ 100 := by decide

/-- C2 amended: on that scenario the score is exactly 50, decomposed as 10
from tech overlap (`min(1 × 10, 40)`, one overlapping entry), 10 from
feature overlap, 20 from domain match and 10 from recency. -/
theorem calculateRelevanceScore_scenario_is_50 :
    calculateRelevanceScore testParseDate 1735689600000 scenarioReference
      ["react", "typescript"] ["routing"] "framework" = 50 ∧
    techComponent (techOverlapCount scenarioReference ["react", "typescript"]) = 10 ∧
    featureComponent (featureOverlapCount scenarioReference ["routing"]) = 10 ∧
    domainComponent scenarioReference.domain "framework" = 20 ∧
    recencyBonus testParseDate 1735689600000 scenarioReference.lastUpdated = 10 := by
  decide

/-- C7: `constructSearchQuery` joins, with single spaces and in the order
domain–tech–features–platform, the domain token (present only when the
domain is non-empty and different from "general"), at most the first 3
tech-stack entries, at most the first 2 feature entries, and a final
"github" token; its token list always ends with "github". -/
theorem constructSearchQuery_bounded (ts fs : List String) (d : String) :
    constructSearchQuery ts fs d =
      joinSp ((if d ≠ "" ∧ d ≠ "general" then [d] else []) ++
        (if ts = [] then [] else [joinSp (ts.take 3)]) ++
        (if fs = [] then [] else [joinSp (fs.take 2)]) ++ ["github"]) ∧
    (queryParts ts fs d).getLast? = some "github" ∧
    (ts.take 3).length ≤ 3 ∧ (fs.take 2).length ≤ 2 := by
  refine ⟨?_, ?_, ?_, ?_⟩
  · unfold constructSearchQuery queryParts
    cases ts <;> cases fs <;> simp
  · unfold queryParts
    simp
  · simp [List.length_take]
  · simp [List.length_take]

/-- C8: for every Date parser, wall clock, reference and target profile,
`calculateRelevanceScore` returns a value between 0 and 100. -/
theorem calculateRelevanceScore_bounds (p : String → Option Int) (now : Int)
    (ref : Reference) (tts tfs : List String) (td : String) :
    0 ≤ calculateRelevanceScore p now ref tts tfs td ∧
    calculateRelevanceScore p now ref tts tfs td ≤ 100 := by
  have ht : 0 ≤ techComponent (techOverlapCount ref tts) ∧
      techComponent (techOverlapCount ref tts) ≤ 40 := by
    unfold techComponent jsMin; split_ifs <;> omega
  have hf : 0 ≤ featureComponent (featureOverlapCount ref tfs) ∧
      featureComponent (featureOverlapCount ref tfs) ≤ 30 := by
    unfold featureComponent jsMin; split_ifs <;> omega
  have hd : 0 ≤ domainComponent ref.domain td ∧ domainComponent ref.domain td ≤ 20 := by
    unfold domainComponent; split_ifs <;> omega
  have hr := recencyBonus_bounds p now ref.lastUpdated
  simp only [calculateRelevanceScore, jsMin]
  split_ifs <;> omega

/-- C9: the tech component of `calculateRelevanceScore` is exactly
`min(overlapCount × 10, 40)`, and — holding the feature component, the
domain component and the recency bonus fixed — a larger tech-stack overlap
count never decreases the score. -/
theorem calculateRelevanceScore_tech_monotone :
    (∀ (p : String → Option Int) (now : Int) (ref : Reference)
        (tts tfs : List String) (td : String),
      calculateRelevanceScore p now ref tts tfs td =
        min (techComponent (techOverlapCount ref tts) +
          featureComponent (featureOverlapCount ref tfs) +
          domainComponent ref.domain td +
          recencyBonus p now ref.lastUpdated) 100) ∧
    (∀ n : Nat, techComponent n = min ((n : Int) * 10) 40) ∧
    (∀ (n₁ n₂ : Nat) (rest : Int), n₁ ≤ n₂ →
      jsMin (techComponent n₁ + rest) 100 ≤ jsMin (techComponent n₂ + rest) 100) := by
  refine ⟨?_, ?_, ?_⟩
  · intro p now ref tts tfs td
    simp only [calculateRelevanceScore, zero_add, jsMin_eq_min]
  · intro n
    simp [techComponent, jsMin_eq_min]
  · intro n₁ n₂ rest h
    unfold techComponent jsMin
    split_ifs <;> omega

/-- C9 witness: the monotonicity part applied at overlap counts 1 ≤ 3 with
the other components contributing 20. -/
theorem calculateRelevanceScore_tech_monotone_witness :
    min (techComponent 1 + 20) 100 ≤ min (techComponent 3 + 20) 100 :=
  calculateRelevanceScore_tech_monotone.2.2 1 3 20 (by decide)

/-- C10: in `parsePackageJson` the type-only exclusion applies only to the
libraries list — a `@types/` dependency containing a framework keyword is
classified as a framework, while a `@types/` dependency containing none
lands in neither `frameworks` nor `libraries` yet remains in the
dependencies list. -/
theorem parsePackageJson_types_classification (deps : List String) (dep : String)
    (hmem : dep ∈ deps) (hty : strStartsWith dep "@types/" = true) :
    (depIsFramework dep = true → dep ∈ pkgFrameworks deps) ∧
    (depIsFramework dep = false →
      dep ∉ pkgFrameworks deps ∧ dep ∉ pkgLibraries deps ∧ dep ∈ deps) := by
  constructor
  · intro h
    simp [pkgFrameworks, List.mem_filter, hmem, h]
  · intro h
    refine ⟨?_, ?_, hmem⟩
    · simp [pkgFrameworks, List.mem_filter, h]
    · simp [pkgLibraries, List.mem_filter, hty]

/-- The references field produced by the merge step, by definition. -/
theorem addReferencesPure_references (d : ReferencesData) (newRefs : List Reference) :
    (addReferencesPure d newRefs).references =
      d.references ++ newRefs.filter
        (fun ref => !((d.references.map (·.url)).contains ref.url)) := rfl

/-- The references field produced by the pruning step, by definition. -/
theorem cleanupReferencesPure_references (p : String → Option Int) (cutoff : Int)
    (d : ReferencesData) :
    (cleanupReferencesPure p cutoff d).references =
      d.references.filter (cleanupKeep p cutoff) := rfl

/-- Every incoming `url` is present in the store after one merge. -/
theorem mem_url_after_add (d : ReferencesData) (newRefs : List Reference) :
    ∀ r ∈ newRefs, r.url ∈ (addReferencesPure d newRefs).references.map (·.url) := by
  intro r hr
  rw [addReferencesPure_references, List.map_append, List.mem_append]
  by_cases hmem : r.url ∈ d.references.map (·.url)
  · exact Or.inl hmem
  · right
    exact List.mem_map.mpr ⟨r, List.mem_filter.mpr ⟨hr, by simp [List.contains, hmem]⟩, rfl⟩

/-- C5: merging the same reference list twice leaves the same number of
stored references as merging it once — after the first merge every incoming
`url` is already present, so the second merge filters the whole batch
away. -/
theorem addReferences_idempotent (d : ReferencesData) (newRefs : List Reference) :
    ((addReferencesPure (addReferencesPure d newRefs) newRefs).references).length =
      ((addReferencesPure d newRefs).references).length := by
  have hnil : newRefs.filter (fun ref =>
      !(((addReferencesPure d newRefs).references.map (·.url)).contains ref.url)) = [] := by
    rw [List.filter_eq_nil_iff]
    intro r hr
    simp [List.contains, mem_url_after_add d newRefs r hr]
  rw [addReferencesPure_references, hnil, List.append_nil]

/-- C3 counterexample: starting from the freshly synthesized (reachable)
empty store, one `addReferences` call whose batch holds two entries with
the same `url` leaves the store with a duplicated `url`. -/
theorem addReferences_dup_batch_breaks_uniqueness :
    ¬ ((addReferencesPure emptyStore [dupRefA, dupRefB]).references.map (·.url)).Nodup := by
  decide

/-- C3 amended: `updateTechStack` and `cleanupReferences` always preserve
`url`-uniqueness of the stored list, and `addReferences` preserves it
whenever the input batch itself has pairwise-distinct `url`s; the code
only deduplicates incoming entries against the existing store, not within
the batch. -/
theorem url_uniqueness_preserved (d : ReferencesData) (newRefs : List Reference)
    (p : String → Option Int) (cutoff : Int) (ts : List String)
    (hd : (d.references.map (·.url)).Nodup) :
    ((newRefs.map (·.url)).Nodup →
      ((addReferencesPure d newRefs).references.map (·.url)).Nodup) ∧
    ((cleanupReferencesPure p cutoff d).references.map (·.url)).Nodup ∧
    (updateTechStackPure d ts).references = d.references := by
  refine ⟨?_, ?_, rfl⟩
  · intro hnew
    rw [addReferencesPure_references, List.map_append]
    refine List.nodup_append.mpr ⟨hd, ?_, ?_⟩
    · exact ((List.filter_sublist newRefs).map (·.url)).nodup hnew
    · intro u hu1 hu2
      obtain ⟨r, hrf, rfl⟩ := List.mem_map.mp hu2
      have hkeep := (List.mem_filter.mp hrf).2
      have hnot : r.url ∉ d.references.map (·.url) := by
        simpa [List.contains] using hkeep
      exact hnot hu1
  · rw [cleanupReferencesPure_references]
    exact ((List.filter_sublist d.references).map (·.url)).nodup hd

/-- C3 witness: the amended preservation applied to a concrete store with
one reference and a batch with one fresh `url`. -/
theorem url_uniqueness_preserved_witness :
    ((addReferencesPure c1Store [freshRef]).references.map (·.url)).Nodup :=
  (url_uniqueness_preserved c1Store [freshRef] testParseDate 0 ["react"]
    (by decide)).1 (by decide)

/-- C4 counterexample: when `fs.mkdir` throws a permission-denied `Error`,
`loadReferences` returns a failure whose error is that very `Error`
(name `"Error"`), not a `ReferenceManagerError` wrapping it. -/
theorem loadReferences_error_not_wrapped :
    loadReferencesShell deniedFsm "/proj" "2025-01-01T00:00:00Z" =
      .failure ⟨"Error", "EACCES: permission denied, mkdir"⟩ ∧
    ("Error" : String) ≠ "ReferenceManagerError" := by decide

/-- C4 amended: a failing `fs.mkdir`, and a failing `fs.writeFile` of the
synthesized empty state, each surface as a failure `Result` (never
swallowed); the carried error is the originally thrown `Error` unchanged
when the cause is an `Error` instance, and a `ReferenceManagerError`
holding the stringified cause only when the thrown value is not an
`Error`. -/
theorem loadReferences_error_propagation (fsm : FsModel) (pp nowIso : String)
    (t r : JsThrown) (n m s : String) :
    (fsm.mkdirRes = .error t →
      loadReferencesShell fsm pp nowIso = .failure (catchToError t)) ∧
    (fsm.mkdirRes = .ok () → fsm.readParseRes = .error r → fsm.writeRes = .error t →
      loadReferencesShell fsm pp nowIso = .failure (catchToError t)) ∧
    catchToError (.err n m) = ⟨n, m⟩ ∧
    catchToError (.other s) = ⟨"ReferenceManagerError", s⟩ := by
  refine ⟨?_, ?_, rfl, rfl⟩
  · intro h
    unfold loadReferencesShell
    rw [h]
  · intro h1 h2 h3
    unfold loadReferencesShell
    rw [h1, h2, h3]

/-- C4 witness: the mkdir clause applied to the permission-denied
oracle. -/
theorem loadReferences_error_propagation_witness :
    loadReferencesShell deniedFsm "/proj" "2025-01-01T00:00:00Z" =
      .failure (catchToError (.err "Error" "EACCES: permission denied, mkdir")) :=
  (loadReferences_error_propagation deniedFsm "/proj" "2025-01-01T00:00:00Z"
    (.err "Error" "EACCES: permission denied, mkdir") (.other "unreached")
    "n" "m" "s").1 rfl

/-- Membership is preserved by `insertDesc`. -/
theorem mem_insertDesc {x r : Reference} {l : List Reference} :
    x ∈ insertDesc r l ↔ x = r ∨ x ∈ l := by
  induction l with
  | nil => simp [insertDesc]
  | cons y ys ih =>
    unfold insertDesc
    split_ifs with h
    · simp [List.mem_cons]
    · simp only [List.mem_cons, ih]
      tauto

/-- Insertion keeps a descending run descending. -/
theorem pairwise_insertDesc {r : Reference} {l : List Reference}
    (h : l.Pairwise (fun a b => b.relevanceScore ≤ a.relevanceScore)) :
    (insertDesc r l).Pairwise (fun a b => b.relevanceScore ≤ a.relevanceScore) := by
  induction l with
  | nil => simp [insertDesc]
  | cons y ys ih =>
    rw [List.pairwise_cons] at h
    obtain ⟨hy, hys⟩ := h
    unfold insertDesc
    split_ifs with hle
    · refine List.pairwise_cons.mpr ⟨?_, List.pairwise_cons.mpr ⟨hy, hys⟩⟩
      intro a ha
      rcases List.mem_cons.mp ha with rfl | ha'
      · exact hle
      · exact le_trans (hy a ha') hle
    · refine List.pairwise_cons.mpr ⟨?_, ih hys⟩
      intro a ha
      rcases mem_insertDesc.mp ha with rfl | ha'
      · omega
      · exact hy a ha'

/-- The stable sort produces a descending run. -/
theorem pairwise_sortDesc (l : List Reference) :
    (sortDesc l).Pairwise (fun a b => b.relevanceScore ≤ a.relevanceScore) := by
  induction l with
  | nil => simp [sortDesc]
  | cons y ys ih => exact pairwise_insertDesc ih

/-- Membership is preserved by `sortDesc`. -/
theorem mem_sortDesc {x : Reference} {l : List Reference} :
    x ∈ sortDesc l ↔ x ∈ l := by
  induction l with
  | nil => simp [sortDesc]
  | cons y ys ih => simp [sortDesc, mem_insertDesc, ih]

/-- Restricting to one score value, `insertDesc` puts the inserted element
in front: every element it passes over has a strictly larger score. -/
theorem filter_score_insertDesc (r : Reference) (l : List Reference) (s : Int) :
    (insertDesc r l).filter (fun x => decide (x.relevanceScore = s)) =
      if r.relevanceScore = s then
        r :: l.filter (fun x => decide (x.relevanceScore = s))
      else l.filter (fun x => decide (x.relevanceScore = s)) := by
  induction l with
  | nil => by_cases hr : r.relevanceScore = s <;> simp [insertDesc, hr]
  | cons y ys ih =>
    by_cases hyr : y.relevanceScore ≤ r.relevanceScore
    · rw [show insertDesc r (y :: ys) = r :: y :: ys by simp [insertDesc, hyr]]
      by_cases hrs : r.relevanceScore = s <;> simp [List.filter_cons, hrs]
    · rw [show insertDesc r (y :: ys) = y :: insertDesc r ys by simp [insertDesc, hyr]]
      rw [List.filter_cons, ih, List.filter_cons]
      by_cases hys : y.relevanceScore = s
      · have hrs : ¬ r.relevanceScore = s := by
          intro h
          apply hyr
          omega
        simp [hys, hrs]
      · by_cases hrs : r.relevanceScore = s <;> simp [hys, hrs]

/-- Stability of the sort: the elements of each score class keep their
original relative order. -/
theorem filter_score_sortDesc (l : List Reference) (s : Int) :
    (sortDesc l).filter (fun x => decide (x.relevanceScore = s)) =
      l.filter (fun x => decide (x.relevanceScore = s)) := by
  induction l with
  | nil => rfl
  | cons y ys ih =>
    rw [show sortDesc (y :: ys) = insertDesc y (sortDesc ys) from rfl,
      filter_score_insertDesc, ih, List.filter_cons]
    by_cases h : y.relevanceScore = s <;> simp [h]

/-- With only a free-text query and a score threshold present,
`searchReferences` filters by the query, then by the threshold, then
sorts. -/
theorem searchReferencesPure_query_min (refs : List Reference) (q : String) (m : Int)
    (hq : q ≠ "") :
    searchReferencesPure refs { query := some q, minRelevanceScore := some m } =
      sortDesc ((refs.filter (matchesQuery (strLower q))).filter
        (fun ref => decide (m ≤ ref.relevanceScore))) := by
  unfold searchReferencesPure
  simp [hq]

/-- C6: when `searchReferences` is called with both a free-text query and a
`minRelevanceScore`, every returned reference matches the query
(case-insensitive substring over name, description, tech-stack entries,
feature entries and domain — `matchesQuery`) and meets the threshold; the
result is descending in `relevanceScore`; and within each score value the
returned references keep the relative order they had in the stored list
(restricted to the survivors of both filters). -/
theorem searchReferences_filters_and_sorts (refs : List Reference) (q : String)
    (m : Int) (hq : q ≠ "") :
    (∀ r ∈ searchReferencesPure refs { query := some q, minRelevanceScore := some m },
      matchesQuery (strLower q) r = true ∧ m ≤ r.relevanceScore) ∧
    (searchReferencesPure refs
      { query := some q, minRelevanceScore := some m }).Pairwise
        (fun a b => b.relevanceScore ≤ a.relevanceScore) ∧
    (∀ s : Int,
      (searchReferencesPure refs
          { query := some q, minRelevanceScore := some m }).filter
            (fun x => decide (x.relevanceScore = s)) =
        ((refs.filter (matchesQuery (strLower q))).filter
            (fun ref => decide (m ≤ ref.relevanceScore))).filter
              (fun x => decide (x.relevanceScore = s))) := by
  rw [searchReferencesPure_query_min refs q m hq]
  refine ⟨?_, pairwise_sortDesc _, ?_⟩
  · intro r hr
    have hmem := mem_sortDesc.mp hr
    have h2 := List.mem_filter.mp hmem
    have h1 := List.mem_filter.mp h2.1
    exact ⟨h1.2, by simpa using h2.2⟩
  · intro s
    rw [filter_score_sortDesc]

/-- C6 witness: the search guarantee applied to a concrete three-reference
store, query "react" and threshold 70. -/
theorem searchReferences_filters_and_sorts_witness :
    (∀ r ∈ searchReferencesPure searchFixture
        { query := some "react", minRelevanceScore := some 70 },
      matchesQuery (strLower "react") r = true ∧ (70 : Int) ≤ r.relevanceScore) ∧
    (searchReferencesPure searchFixture
      { query := some "react", minRelevanceScore := some 70 }).Pairwise
        (fun a b => b.relevanceScore ≤ a.relevanceScore) ∧
    (∀ s : Int,
      (searchReferencesPure searchFixture
          { query := some "react", minRelevanceScore := some 70 }).filter
            (fun x => decide (x.relevanceScore = s)) =
        ((searchFixture.filter (matchesQuery (strLower "react"))).filter
            (fun ref => decide ((70 : Int) ≤ ref.relevanceScore))).filter
              (fun x => decide (x.relevanceScore = s))) :=
  searchReferences_filters_and_sorts searchFixture "react" 70 (by decide)

/-- C10 witness: the classification applied to the concrete dependency list
`["@types/react", "@types/lodash", "jest"]` at `"@types/react"`. -/
theorem parsePackageJson_types_classification_witness :
    (depIsFramework "@types/react" = true →
      "@types/react" ∈ pkgFrameworks ["@types/react", "@types/lodash", "jest"]) ∧
    (depIsFramework "@types/react" = false →
      "@types/react" ∉ pkgFrameworks ["@types/react", "@types/lodash", "jest"] ∧
      "@types/react" ∉ pkgLibraries ["@types/react", "@types/lodash", "jest"] ∧
      "@types/react" ∈ ["@types/react", "@types/lodash", "jest"]) :=
  parsePackageJson_types_classification ["@types/react", "@types/lodash", "jest"]
    "@types/react" (by decide) (by decide)
